import Mathlib

/-!
Verification development for the EMNet splicer (`splicer.py`).

The Python source is shallowly embedded over `List Char` / `Nat` / `Int`:

* `split_zczc` embeds the anchored regular expression of `splicer.py`
  (`^ZCZC-([A-Z]{3})-([A-Z]{3})-((?:\d{6}(?:-?)){1,31})\+(\d{4})-(\d{7})-([A-Za-z0-9\/ ]{0,8})-?$`)
  as a deterministic scanner.  The regex is backtracking-free on this
  grammar because the character following the location-code group (`+`)
  cannot occur inside the group, the station-id class excludes `-`, and
  all other fields are fixed-width, so a greedy scanner is equivalent.
  Python's `$` also accepts a single trailing newline, which the scanner
  mirrors in `endOK`.
* `pySplit` embeds Python's `str.split(sep)` for a single-character
  separator (keeping empty fields), used at
  `location_code_list = location_codes.split('-')`.
* `pyStrip` embeds Python's `str.strip()` (the Unicode whitespace set
  used by `str.isspace`), used at `header_text = zczc_string.strip()`.
* `generate_tones` embeds the tone encoder.  The pydub sine renders of a
  single mark bit, a single space bit and the 1000 ms silence gap are
  floating-point sample buffers; they are abstracted as list parameters
  `markRaw`, `spaceRaw`, `gapRaw1s`, exactly as the code treats them
  (opaque byte strings concatenated by the bit/byte/burst loops).  The
  process-wide `_segment_cache` is threaded explicitly as an
  `Option ToneCache` in and out of the function.
* `planSegments` records, in order, the audio segments `splice` appends,
  and `assemble` embeds the lookup-or-fail walk over them
  (`os.path.exists` + `AudioSegment.from_wav` becomes a `lookup`
  function returning `Option`; in-process tone/silence synthesis becomes
  a total `synth` function); `exportIfOk` embeds that
  `combined_audio.export` runs only when no lookup failed.
* `spliceTimePolicy` embeds the timezone-policy selection of `splice`
  (lines 203-240).  The local-system-timezone branch reads the wall
  clock and the host timezone database, which a shallow embedding cannot
  reproduce; its resulting end time is abstracted as the parameter
  `localEnd`.  The named-offset branch applies a constant whole-hour
  shift, so only the end hour changes, modulo 24 with Python's
  nonnegative `%` (embedded via `Int.emod`).
-/

namespace Splicer

/-- Error taxonomy of the splicer (ValueError at the format check,
ValueError at the tone-input checks, ValueError at the timezone-override
check, FileNotFoundError for a missing audio asset). -/
inductive SpliceError where
  | invalidFormat
  | invalidInput
  | unknownTimezone
  | conflictingTimezoneOptions
  | missingAsset (id : List Char)
deriving DecidableEq

/-- `[A-Z]` of the originator/event groups. -/
def isUpperAZ (c : Char) : Bool := 'A' ≤ c && c ≤ 'Z'

/-- `\d` of the numeric groups. -/
def isDigitC (c : Char) : Bool := '0' ≤ c && c ≤ '9'

/-- `[A-Za-z0-9\/ ]` of the station-identifier group. -/
def isStationChar (c : Char) : Bool :=
  isUpperAZ c || ('a' ≤ c && c ≤ 'z') || isDigitC c || c = '/' || c = ' '

/-- Take exactly `n` characters, all satisfying `p`, returning them and
the rest; `none` if fewer than `n` such characters are available. -/
def takeFixed (p : Char → Bool) : Nat → List Char → Option (List Char × List Char)
  | 0, cs => some ([], cs)
  | _ + 1, [] => none
  | n + 1, c :: cs =>
      if p c then (takeFixed p n cs).map (fun r => (c :: r.1, r.2)) else none

/-- Greedily take up to `n` characters satisfying `p`. -/
def takeUpTo (p : Char → Bool) : Nat → List Char → List Char × List Char
  | 0, cs => ([], cs)
  | _ + 1, [] => ([], [])
  | n + 1, c :: cs =>
      if p c then
        let r := takeUpTo p n cs
        (c :: r.1, r.2)
      else ([], c :: cs)

/-- The location-code group `(?:\d{6}(?:-?)){1,31}`: greedily consume up
to `fuel` repetitions of six digits followed by an optional hyphen,
returning the consumed text (capture group 3 keeps the hyphens) and the
rest. -/
def locIter : Nat → List Char → List Char × List Char
  | 0, cs => ([], cs)
  | fuel + 1, cs =>
      match takeFixed isDigitC 6 cs with
      | none => ([], cs)
      | some (digs, rest) =>
          match rest with
          | '-' :: r2 =>
              let r := locIter fuel r2
              (digs ++ '-' :: r.1, r.2)
          | _ =>
              let r := locIter fuel rest
              (digs ++ r.1, r.2)

/-- `-?$` with Python's end-of-string semantics (`$` also matches just
before one trailing newline). -/
def endOK (cs : List Char) : Bool :=
  match cs with
  | [] => true
  | ['\n'] => true
  | ['-'] => true
  | ['-', '\n'] => true
  | _ => false

/-- The six capture groups of the header regex. -/
structure ZCZCGroups where
  originator : List Char
  event : List Char
  locationCodes : List Char
  duration : List Char
  dateTimeGroup : List Char
  stationId : List Char
deriving DecidableEq

/-- `split_zczc`: match the ZCZC header against the anchored regex and
return the capture groups, or `none` (the code raises
`ValueError("Invalid ZCZC string format.")`). -/
def split_zczc (cs : List Char) : Option ZCZCGroups :=
  match cs with
  | 'Z' :: 'C' :: 'Z' :: 'C' :: '-' :: r0 =>
      match takeFixed isUpperAZ 3 r0 with
      | none => none
      | some (org, r1) =>
          match r1 with
          | '-' :: r2 =>
              match takeFixed isUpperAZ 3 r2 with
              | none => none
              | some (evt, r3) =>
                  match r3 with
                  | '-' :: r4 =>
                      let grp := locIter 31 r4
                      if grp.1 = [] then none
                      else
                        match grp.2 with
                        | '+' :: r6 =>
                            match takeFixed isDigitC 4 r6 with
                            | none => none
                            | some (dur, r7) =>
                                match r7 with
                                | '-' :: r8 =>
                                    match takeFixed isDigitC 7 r8 with
                                    | none => none
                                    | some (dtg, r9) =>
                                        match r9 with
                                        | '-' :: r10 =>
                                            let st := takeUpTo isStationChar 8 r10
                                            if endOK st.2 then
                                              some ⟨org, evt, grp.1, dur, dtg, st.1⟩
                                            else none
                                        | _ => none
                                | _ => none
                        | _ => none
                  | _ => none
          | _ => none
  | _ => none

/-- Python `str.split(sep)` for a one-character separator: split at every
occurrence of `sep`, keeping empty fields (`"".split('-') == [""]`).
Embeds `location_codes.split('-')`. -/
def pySplit (sep : Char) : List Char → List (List Char)
  | [] => [[]]
  | c :: rest =>
      if c = sep then [] :: pySplit sep rest
      else
        match pySplit sep rest with
        | [] => [[c]]
        | h :: t => (c :: h) :: t

/-- Codepoints for which Python `str.isspace()` is true; `str.strip()`
removes exactly these from both ends. -/
def pySpaceCodes : List Nat :=
  [9, 10, 11, 12, 13, 28, 29, 30, 31, 32, 133, 160, 5760,
   8192, 8193, 8194, 8195, 8196, 8197, 8198, 8199, 8200, 8201, 8202,
   8232, 8233, 8239, 8287, 12288]

/-- Whether `c` is Python whitespace. -/
def isPySpace (c : Char) : Bool := pySpaceCodes.contains c.toNat

/-- Python `str.strip()`: drop whitespace from both ends.  Embeds
`header_text = zczc_string.strip()`. -/
def pyStrip (cs : List Char) : List Char :=
  ((cs.dropWhile isPySpace).reverse.dropWhile isPySpace).reverse

/-- Numeric value of a digit character (`int` on a digit). -/
def digitVal (c : Char) : Nat := c.toNat - 48

/-- The digit character for `n % 10`. -/
def digitChar (n : Nat) : Char := Char.ofNat (48 + n % 10)

/-- Python `f"{n:02d}"` for `n ≤ 99`: the two-digit decimal rendering. -/
def two (n : Nat) : List Char := [digitChar (n / 10), digitChar (n % 10)]

/-- Python `int(s[0:2])` on a digit string: the value of the first two
characters. -/
def twoDigits : List Char → Nat
  | a :: b :: _ => 10 * digitVal a + digitVal b
  | _ => 0

/-- `issue_time = datetime_group[3:]`. -/
def issue_time (g : ZCZCGroups) : List Char := g.dateTimeGroup.drop 3

/-- `issue_hour = int(issue_time[0:2])`. -/
def issue_hour (g : ZCZCGroups) : Nat := twoDigits (issue_time g)

/-- `issue_minute = int(issue_time[2:4])`. -/
def issue_minute (g : ZCZCGroups) : Nat := twoDigits ((issue_time g).drop 2)

/-- `duration_hours = int(duration[0:2])`. -/
def duration_hours (g : ZCZCGroups) : Nat := twoDigits g.duration

/-- `duration_minutes = int(duration[2:4])`. -/
def duration_minutes (g : ZCZCGroups) : Nat := twoDigits (g.duration.drop 2)

/-- `end_hour = (issue_hour + duration_hours + (issue_minute + duration_minutes) // 60) % 24`. -/
def end_hour (g : ZCZCGroups) : Nat :=
  (issue_hour g + duration_hours g + (issue_minute g + duration_minutes g) / 60) % 24

/-- `end_minute = (issue_minute + duration_minutes) % 60`. -/
def end_minute (g : ZCZCGroups) : Nat := (issue_minute g + duration_minutes g) % 60

/-- The default (UTC) end time of `splice`, as a pair. -/
def utcEnd (g : ZCZCGroups) : Nat × Nat := (end_hour g, end_minute g)

/-- The `hour<HH>.wav` / `am-pm` selection of `splice` (lines 242-253):
the spoken hour digits and whether the PM file is chosen. -/
def hourAmPm (eh : Nat) : List Char × Bool :=
  if eh = 0 then (['1', '2'], false)
  else if eh < 12 then (two eh, false)
  else if eh = 12 then (['1', '2'], true)
  else (two (eh - 12), true)

/-- Symbolic audio segments, in the order `splice` appends them. -/
inductive SegmentRef where
  | silence (ms : Nat)
  | toneBurst (payload : List Char)
  | attentionSignal
  | event (code : List Char)
  | location (code : List Char)
  | andSeg
  | untilSeg
  | hour (hh : List Char)
  | minute (mm : List Char)
  | ampm (isPM : Bool)
deriving DecidableEq

/-- The location walk of `splice` for the codes at index ≥ 1: the `and`
segment is appended immediately before the element whose index equals
`len - 1` (which for these elements is always a non-zero index). -/
def locSegsRest : List (List Char) → List SegmentRef
  | [] => []
  | [c] => [SegmentRef.andSeg, SegmentRef.location c]
  | c :: rest => SegmentRef.location c :: locSegsRest rest

/-- The location walk of `splice` (lines 177-188): for each code in
order, append `and` just before the last code when there are at least
two codes, then the location segment itself. -/
def locSegs : List (List Char) → List SegmentRef
  | [] => []
  | [c] => [SegmentRef.location c]
  | c :: rest => SegmentRef.location c :: locSegsRest rest

/-- The leading tone block appended when `include_tones` is set:
silence, the AFSK burst of the raw header, silence, the 853+960 Hz
attention signal, silence. -/
def tonesLead (raw : List Char) : List SegmentRef :=
  [SegmentRef.silence 1000, SegmentRef.toneBurst raw, SegmentRef.silence 1000,
   SegmentRef.attentionSignal, SegmentRef.silence 1000]

/-- The trailing tone block: silence, the `NNNN` end-of-message burst,
silence. -/
def tonesTail : List SegmentRef :=
  [SegmentRef.silence 1000, SegmentRef.toneBurst ['N', 'N', 'N', 'N'],
   SegmentRef.silence 1000]

/-- The ordered sequence of audio segments `splice` assembles for a
parsed header `g` with resolved end time `(endH, endM)`. -/
def planSegments (g : ZCZCGroups) (includeTones : Bool) (endH endM : Nat)
    (raw : List Char) : List SegmentRef :=
  (if includeTones then tonesLead raw else [])
    ++ [SegmentRef.event g.event]
    ++ locSegs (pySplit '-' g.locationCodes)
    ++ [SegmentRef.untilSeg]
    ++ [SegmentRef.hour (hourAmPm endH).1, SegmentRef.minute (two endM),
        SegmentRef.ampm (hourAmPm endH).2]
    ++ (if includeTones then tonesTail else [])

/-- The asset identifier a segment resolves through the external audio
collaborator, or `none` for segments synthesized in-process.  Follows
the file-name scheme of `splice` (`EVENTS/<event>`, `LOC/<code>`,
`OTHER/and`, `OTHER/until`, `TIMES/hour<HH>`, `TIMES/minute<MM>`,
`TIMES/am`, `TIMES/pm`). -/
def assetId : SegmentRef → Option (List Char)
  | SegmentRef.event c => some ("EVENTS/".toList ++ c)
  | SegmentRef.location c => some ("LOC/".toList ++ c)
  | SegmentRef.andSeg => some "OTHER/and".toList
  | SegmentRef.untilSeg => some "OTHER/until".toList
  | SegmentRef.hour hh => some ("TIMES/hour".toList ++ hh)
  | SegmentRef.minute mm => some ("TIMES/minute".toList ++ mm)
  | SegmentRef.ampm b => some (if b then "TIMES/pm".toList else "TIMES/am".toList)
  | _ => none

/-- The assembler walk of `splice`: resolve each segment in order,
concatenating samples; a segment with an asset identifier that `lookup`
cannot resolve raises `FileNotFoundError` at once (`missingAsset`),
abandoning the walk; segments without an identifier are synthesized by
`synth`. -/
def assemble (lookup : List Char → Option (List Int)) (synth : SegmentRef → List Int) :
    List SegmentRef → Except SpliceError (List Int)
  | [] => Except.ok []
  | r :: rest =>
      match assetId r with
      | some id =>
          match lookup id with
          | none => Except.error (SpliceError.missingAsset id)
          | some samples => (assemble lookup synth rest).map (fun tail => samples ++ tail)
      | none => (assemble lookup synth rest).map (fun tail => synth r ++ tail)

/-- `combined_audio.export(output_file, ...)` runs only after every
segment resolved; a raised error skips it, so no file is written. -/
def exportIfOk : Except SpliceError (List Int) → Option (List Int)
  | Except.ok samples => some samples
  | Except.error _ => none

/-- Whether an assembler result is the missing-asset failure. -/
def isMissingAssetErr {α : Type} : Except SpliceError α → Bool
  | Except.error (SpliceError.missingAsset _) => true
  | _ => false

/-- Whether a tone-encoder result is the invalid-input failure. -/
def isInvalidInput {α : Type} : Except SpliceError α → Bool
  | Except.error SpliceError.invalidInput => true
  | _ => false

/-- Concatenation of the lists produced by `f`, mirroring the
`bytearray.extend` loops of the tone encoder. -/
def flatConcat {α β : Type} (f : α → List β) : List α → List β
  | [] => []
  | a :: t => f a ++ flatConcat f t

/-- One entry of the byte lookup table: for `bit_index` in `0..7`,
extend with the mark render when `(value >> bit_index) & 1` is set,
else the space render (least-significant bit first). -/
def byteChunk (markRaw spaceRaw : List Int) (value : Nat) : List Int :=
  flatConcat (fun bitIndex => if (value >>> bitIndex) &&& 1 = 1 then markRaw else spaceRaw)
    (List.range 8)

/-- `byte_lookup`: the pre-rendered audio for each of the 256 byte
values. -/
def buildByteLookup (markRaw spaceRaw : List Int) : List (List Int) :=
  (List.range 256).map (byteChunk markRaw spaceRaw)

/-- `byte_lookup[value]` (every byte fed to it is < 256). -/
def lookupByte (tbl : List (List Int)) (v : Nat) : List Int := tbl.getD v []

/-- The process-wide `generate_tones._segment_cache`: the byte lookup
table and the 1000 ms silence render, built once from the bit renders. -/
structure ToneCache where
  byteLookup : List (List Int)
  gapRaw : List Int
deriving DecidableEq

/-- Build the cache from the mark/space bit renders and the silence
render. -/
def buildCache (markRaw spaceRaw gapRaw1s : List Int) : ToneCache :=
  ⟨buildByteLookup markRaw spaceRaw, gapRaw1s⟩

/-- `burst_bytes = bytes([0xAB] * 16) + header_bytes + b"\r"`. -/
def burstBytes (payload : List Char) : List Nat :=
  List.replicate 16 171 ++ payload.map Char.toNat ++ [13]

/-- The triple-burst render loop: each of the three repeats renders
every burst byte through the lookup table, with the silence gap after
the first and second repeats only. -/
def renderWith (c : ToneCache) (payload : List Char) : List Int :=
  flatConcat (lookupByte c.byteLookup) (burstBytes payload) ++ c.gapRaw
    ++ flatConcat (lookupByte c.byteLookup) (burstBytes payload) ++ c.gapRaw
    ++ flatConcat (lookupByte c.byteLookup) (burstBytes payload)

/-- `generate_tones`: validate the payload (empty, whitespace-only
after stripping, or non-ASCII after stripping each raise `ValueError`),
build the segment cache if absent, and render the stripped header three
times.  Returns the result together with the cache state after the
call. -/
def generate_tones (markRaw spaceRaw gapRaw1s : List Int) (cache : Option ToneCache)
    (payload : List Char) : Except SpliceError (List Int) × Option ToneCache :=
  if payload = [] then (Except.error SpliceError.invalidInput, cache)
  else if pyStrip payload = [] then (Except.error SpliceError.invalidInput, cache)
  else if (pyStrip payload).any (fun c => decide (128 ≤ c.toNat)) then
    (Except.error SpliceError.invalidInput, cache)
  else
    (Except.ok (renderWith (cache.getD (buildCache markRaw spaceRaw gapRaw1s)) (pyStrip payload)),
     some (cache.getD (buildCache markRaw spaceRaw gapRaw1s)))

/-- Follows the spec's words for the tone layout: a byte is rendered
least-significant-bit first, the mark chunk for a 1 bit and the space
chunk for a 0 bit. -/
def byteChunkLSB (markRaw spaceRaw : List Int) (value : Nat) : List Int :=
  flatConcat (fun bitIndex => if value.testBit bitIndex then markRaw else spaceRaw)
    (List.range 8)

/-- Follows the spec's words: the audio of a byte sequence is the
concatenation of its bytes' renders. -/
def renderMessage (markRaw spaceRaw : List Int) (bytes : List Nat) : List Int :=
  flatConcat (byteChunkLSB markRaw spaceRaw) bytes

/-- The fixed named-offset table of `splice` (hours from UTC). -/
def tzOffsets (name : List Char) : Option Int :=
  if name = "UTC".toList then some 0
  else if name = "EST".toList then some (-5)
  else if name = "EDT".toList then some (-4)
  else if name = "CST".toList then some (-6)
  else if name = "CDT".toList then some (-5)
  else if name = "MST".toList then some (-7)
  else if name = "MDT".toList then some (-6)
  else if name = "PST".toList then some (-8)
  else if name = "PDT".toList then some (-7)
  else none

/-- End time under a constant whole-hour offset: the issue instant is
shifted by `off` hours, the duration added, and the civil hour read
back, which is the UTC arithmetic with `off` added to the hour modulo
24 (Python `%` on a fixed-offset `datetime.hour`, hence nonnegative). -/
def offsetEnd (off : Int) (ih im dh dm : Nat) : Nat × Nat :=
  ((((ih + dh + (im + dm) / 60 : Nat) : Int) + off).emod 24 |>.toNat, (im + dm) % 60)

/-- The timezone-policy selection of `splice` (lines 203-240): the UTC
end time is computed first; then `if use_local_time:` recomputes it from
the system clock and host timezone (abstracted as `localEnd`),
`elif tz_override is not None:` recomputes it under the named constant
offset, raising `ValueError` for an unknown name. -/
def spliceTimePolicy (localEnd : Nat × Nat) (use_local_time : Bool)
    (tz_override : Option (List Char)) (ih im dh dm : Nat) :
    Except SpliceError (Nat × Nat) :=
  if use_local_time then Except.ok localEnd
  else
    match tz_override with
    | none => Except.ok ((ih + dh + (im + dm) / 60) % 24, (im + dm) % 60)
    | some name =>
        match tzOffsets name with
        | none => Except.error SpliceError.unknownTimezone
        | some off => Except.ok (offsetEnd off ih im dh dm)

/-- The CLI guard of `main` (line 296): `--local-time` together with a
`--tz-override` value is rejected by `parser.error` before `splice` is
called. -/
def mainConflict (local_time : Bool) (tz_override : Option (List Char)) : Bool :=
  local_time && tz_override.isSome

/-- A location-code group written with a hyphen between each pair of
consecutive codes (the form whose splitting the spec describes). -/
def hyphenJoin : List (List Char) → List Char
  | [] => []
  | [c] => c
  | c :: rest => c ++ '-' :: hyphenJoin rest

/-- The capture groups of the header whose location-code group omits the
hyphen between its two codes. -/
def gNoHyphen : ZCZCGroups :=
  ⟨"EAS".toList, "RWT".toList, "006101006103".toList, "0030".toList,
   "0010015".toList, "KEAS/TV".toList⟩

/-- The capture groups of the reference header with a hyphen between its
two codes. -/
def gHyphen : ZCZCGroups :=
  ⟨"EAS".toList, "RWT".toList, "006101-006103".toList, "0030".toList,
   "0010015".toList, "KEAS/TV".toList⟩

/-- The capture groups of the header whose location-code group ends with
a hyphen just before the `+`. -/
def gTrailing : ZCZCGroups :=
  ⟨"EAS".toList, "RWT".toList, "006101-".toList, "0030".toList,
   "0010015".toList, "KEAS/TV".toList⟩

/-- The length of a successful tone render, `none` on failure. -/
def okLength {α : Type} : Except SpliceError (List α) → Option Nat
  | Except.ok l => some l.length
  | Except.error _ => none

/-- A collaborator with no assets at all. -/
def noneLookup : List Char → Option (List Int) := fun _ => none

/-- A synthesizer producing empty sample buffers. -/
def zeroSynth : SegmentRef → List Int := fun _ => []

/-! ### Helper lemmas -/

theorem digitVal_digitChar (d : Nat) (h : d ≤ 9) : digitVal (digitChar d) = d := by
  interval_cases d <;> decide

theorem twoDigits_two (n : Nat) (h : n ≤ 99) (rest : List Char) :
    twoDigits (two n ++ rest) = n := by
  show twoDigits (digitChar (n / 10) :: digitChar (n % 10) :: rest) = n
  show 10 * digitVal (digitChar (n / 10)) + digitVal (digitChar (n % 10)) = n
  rw [digitVal_digitChar (n / 10) (by omega), digitVal_digitChar (n % 10) (by omega)]
  omega

theorem twoDigits_two_nil (n : Nat) (h : n ≤ 99) : twoDigits (two n) = n := by
  have := twoDigits_two n h []
  simpa using this

theorem pySplit_no_sep (sep : Char) : ∀ cs : List Char, sep ∉ cs → pySplit sep cs = [cs]
  | [], _ => rfl
  | c :: t, h => by
      have hc : ¬ c = sep := by
        intro e
        exact h (by simp [e])
      have ih := pySplit_no_sep sep t (fun hm => h (List.mem_cons_of_mem c hm))
      simp [pySplit, hc, ih]

theorem pySplit_sep_append (sep : Char) (r : List Char) :
    ∀ cs : List Char, sep ∉ cs → pySplit sep (cs ++ sep :: r) = cs :: pySplit sep r
  | [], _ => by simp [pySplit]
  | c :: t, h => by
      have hc : ¬ c = sep := by
        intro e
        exact h (by simp [e])
      have ih := pySplit_sep_append sep r t (fun hm => h (List.mem_cons_of_mem c hm))
      simp [pySplit, hc, ih]

theorem pySplit_hyphenJoin : ∀ codes : List (List Char), codes ≠ [] →
    (∀ c ∈ codes, '-' ∉ c) → pySplit '-' (hyphenJoin codes) = codes
  | [], h, _ => absurd rfl h
  | [c], _, hall => by
      show pySplit '-' c = [c]
      exact pySplit_no_sep '-' c (hall c (by simp))
  | c :: c' :: t, _, hall => by
      have ih := pySplit_hyphenJoin (c' :: t) (by simp)
        (fun x hx => hall x (List.mem_cons_of_mem c hx))
      show pySplit '-' (c ++ '-' :: hyphenJoin (c' :: t)) = c :: c' :: t
      rw [pySplit_sep_append '-' (hyphenJoin (c' :: t)) c (hall c (by simp)), ih]

theorem locSegsRest_eq : ∀ cs : List (List Char), cs ≠ [] →
    locSegsRest cs = cs.dropLast.map SegmentRef.location
      ++ [SegmentRef.andSeg, SegmentRef.location (cs.getLastD [])]
  | [], h => absurd rfl h
  | [c], _ => by simp [locSegsRest]
  | c :: c' :: t, _ => by
      have ih := locSegsRest_eq (c' :: t) (by simp)
      simp [locSegsRest, ih, List.getLastD_cons, List.dropLast]

theorem locSegs_two (cs : List (List Char)) (h : 2 ≤ cs.length) :
    locSegs cs = cs.dropLast.map SegmentRef.location
      ++ [SegmentRef.andSeg, SegmentRef.location (cs.getLastD [])] := by
  cases cs with
  | nil => simp at h
  | cons c rest =>
    cases rest with
    | nil => simp at h
    | cons c' t =>
      have ih := locSegsRest_eq (c' :: t) (by simp)
      simp [locSegs, ih, List.getLastD_cons, List.dropLast]

theorem flatConcat_congr {α β : Type} (f g : α → List β) :
    ∀ l : List α, (∀ a ∈ l, f a = g a) → flatConcat f l = flatConcat g l
  | [], _ => rfl
  | a :: t, h => by
      rw [flatConcat, flatConcat, h a (by simp),
        flatConcat_congr f g t (fun x hx => h x (List.mem_cons_of_mem a hx))]

theorem flatConcat_length {α β : Type} (f : α → List β) (k : Nat) :
    ∀ l : List α, (∀ a ∈ l, (f a).length = k) → (flatConcat f l).length = l.length * k
  | [], _ => by simp [flatConcat]
  | a :: t, h => by
      rw [flatConcat]
      simp [List.length_append, h a (by simp),
        flatConcat_length f k t (fun x hx => h x (List.mem_cons_of_mem a hx))]
      ring

theorem lookupByte_build (markRaw spaceRaw : List Int) (v : Nat) (h : v < 256) :
    lookupByte (buildByteLookup markRaw spaceRaw) v = byteChunk markRaw spaceRaw v := by
  unfold lookupByte buildByteLookup
  rw [List.getD_eq_getElem?_getD, List.getElem?_map, List.getElem?_range h]
  rfl

theorem byteChunk_eq_LSB (markRaw spaceRaw : List Int) (v : Nat) :
    byteChunk markRaw spaceRaw v = byteChunkLSB markRaw spaceRaw v := by
  unfold byteChunk byteChunkLSB
  apply flatConcat_congr
  intro i _
  have hbit : ((v >>> i) &&& 1 = 1) ↔ v.testBit i = true := by
    rw [Nat.and_one_is_mod, Nat.shiftRight_eq_div_pow, Nat.testBit_to_div_mod]
    simp
  exact if_congr hbit rfl rfl

theorem byteChunkLSB_length (markRaw spaceRaw : List Int)
    (hlen : spaceRaw.length = markRaw.length) (v : Nat) :
    (byteChunkLSB markRaw spaceRaw v).length = 8 * markRaw.length := by
  have h := flatConcat_length
    (fun bitIndex => if v.testBit bitIndex then markRaw else spaceRaw) markRaw.length
    (List.range 8) (by intro i _; by_cases hb : v.testBit i <;> simp [hb, hlen])
  simpa [byteChunkLSB] using h

theorem burstBytes_length (payload : List Char) :
    (burstBytes payload).length = 16 + payload.length + 1 := by
  simp [burstBytes]
  omega

theorem burstBytes_lt (payload : List Char) (h : ∀ c ∈ payload, c.toNat < 128) :
    ∀ v ∈ burstBytes payload, v < 256 := by
  intro v hv
  simp [burstBytes] at hv
  rcases hv with h171 | ⟨c, hc, hv⟩ | h13
  · omega
  · have := h c hc
    omega
  · omega

theorem isMissingAssetErr_map (f : List Int → List Int) (e : Except SpliceError (List Int)) :
    isMissingAssetErr (e.map f) = isMissingAssetErr e := by
  cases e <;> rfl

theorem missing_no_export (e : Except SpliceError (List Int))
    (h : isMissingAssetErr e = true) : exportIfOk e = none := by
  cases e with
  | ok l => simp [isMissingAssetErr] at h
  | error err => rfl

theorem assemble_missing_aux (lookup : List Char → Option (List Int))
    (synth : SegmentRef → List Int) :
    ∀ plan : List SegmentRef, ∀ r ∈ plan,
      (assetId r).isSome → lookup ((assetId r).getD []) = none →
      isMissingAssetErr (assemble lookup synth plan) = true := by
  intro plan
  induction plan with
  | nil =>
    intro r hr
    simp at hr
  | cons s rest ih =>
    intro r hr hsome hnone
    rcases List.mem_cons.mp hr with heq | hmem
    · subst heq
      obtain ⟨id, hid⟩ := Option.isSome_iff_exists.mp hsome
      rw [hid] at hnone
      simp only [Option.getD_some] at hnone
      simp [assemble, hid, hnone, isMissingAssetErr]
    · have hres := ih r hmem hsome hnone
      cases hA : assetId s with
      | none =>
        simp only [assemble, hA]
        rw [isMissingAssetErr_map]
        exact hres
      | some id =>
        cases hL : lookup id with
        | none => simp [assemble, hA, hL, isMissingAssetErr]
        | some smp =>
          simp only [assemble, hA, hL]
          rw [isMissingAssetErr_map]
          exact hres

/-! ### Claims C2, C4, C5 -/

/-- Claim C4: under the UTC policy, the resolved end time is
`endHour = (issueHour + durationHours + (issueMinute + durationMinutes) div 60) mod 24`
and `endMinute = (issueMinute + durationMinutes) mod 60`, where the
issue hour/minute are parsed from the 7-digit date-time group and the
duration hours/minutes from the 4-digit duration field. -/
theorem utcEnd_formula (g : ZCZCGroups) (j1 j2 j3 : Char) (ih im dh dm : Nat)
    (hdtg : g.dateTimeGroup = j1 :: j2 :: j3 :: (two ih ++ two im))
    (hdur : g.duration = two dh ++ two dm)
    (hih : ih ≤ 23) (him : im ≤ 59) (hdh : dh ≤ 99) (hdm : dm ≤ 99) :
    utcEnd g = ((ih + dh + (im + dm) / 60) % 24, (im + dm) % 60) := by
  have hIssueTime : issue_time g = two ih ++ two im := by
    simp [issue_time, hdtg]
  have h1 : issue_hour g = ih := by
    rw [issue_hour, hIssueTime, twoDigits_two ih (by omega)]
  have h2 : issue_minute g = im := by
    rw [issue_minute, hIssueTime]
    show twoDigits ((digitChar (ih / 10) :: digitChar (ih % 10) :: two im).drop 2) = im
    simpa using twoDigits_two_nil im (by omega)
  have h3 : duration_hours g = dh := by
    rw [duration_hours, hdur, twoDigits_two dh (by omega)]
  have h4 : duration_minutes g = dm := by
    rw [duration_minutes, hdur]
    show twoDigits ((digitChar (dh / 10) :: digitChar (dh % 10) :: two dm).drop 2) = dm
    simpa using twoDigits_two_nil dm (by omega)
  rw [utcEnd, end_hour, end_minute, h1, h2, h3, h4]

/-- Claim C4 witness: issue time 12:00 with duration 0130 resolves to
13:30. -/
theorem utcEnd_formula_witness :
    utcEnd ⟨"EAS".toList, "RWT".toList, "006101-006103".toList, "0130".toList,
      "0011200".toList, "KEAS/TV".toList⟩ = (13, 30) := by
  have h := utcEnd_formula
    ⟨"EAS".toList, "RWT".toList, "006101-006103".toList, "0130".toList,
      "0011200".toList, "KEAS/TV".toList⟩ '0' '0' '1' 12 0 1 30
    (by decide) (by decide) (by decide) (by decide) (by decide) (by decide)
  exact h.trans (by decide)

/-- Claim C5: the planner maps the end hour to spoken references as
hour 0 → "12"/AM, hours 1-11 → the hour (2-digit)/AM, hour 12 →
"12"/PM, hours 13-23 → hour minus 12 (2-digit)/PM, and the plan emits
the Hour, Minute, AmPm segments contiguously in that order. -/
theorem hour_mapping (eh em : Nat) (g : ZCZCGroups) (tones : Bool) (raw : List Char) :
    (eh = 0 → hourAmPm eh = (['1', '2'], false)) ∧
    (1 ≤ eh → eh ≤ 11 → hourAmPm eh = (two eh, false)) ∧
    (eh = 12 → hourAmPm eh = (['1', '2'], true)) ∧
    (13 ≤ eh → eh ≤ 23 → hourAmPm eh = (two (eh - 12), true)) ∧
    ∃ pre post, planSegments g tones eh em raw =
      pre ++ [SegmentRef.hour (hourAmPm eh).1, SegmentRef.minute (two em),
              SegmentRef.ampm (hourAmPm eh).2] ++ post := by
  refine ⟨?_, ?_, ?_, ?_, ?_⟩
  · intro h; simp [hourAmPm, h]
  · intro h1 h2; unfold hourAmPm; rw [if_neg (by omega), if_pos (by omega)]
  · intro h; simp [hourAmPm, h]
  · intro h1 h2
    unfold hourAmPm
    rw [if_neg (by omega), if_neg (by omega), if_neg (by omega)]
  · refine ⟨(if tones then tonesLead raw else []) ++ [SegmentRef.event g.event]
      ++ locSegs (pySplit '-' g.locationCodes) ++ [SegmentRef.untilSeg],
      if tones then tonesTail else [], ?_⟩
    simp [planSegments, List.append_assoc]

/-- Claim C5 witness: end time 00:15 maps to Hour "12" with AM. -/
theorem hour_mapping_witness : hourAmPm 0 = (['1', '2'], false) :=
  (hour_mapping 0 15 ⟨[], [], [], [], [], []⟩ false []).1 rfl

/-- Claim C2 counterexample: invoking the core with both the local-time
policy and the named offset "EST" does not fail with
`ConflictingTimezoneOptions`; it resolves successfully (silently using
the local-time policy). -/
theorem conflict_counterexample :
    spliceTimePolicy (13, 30) true (some "EST".toList) 12 0 1 30 = Except.ok (13, 30) ∧
    spliceTimePolicy (13, 30) true (some "EST".toList) 12 0 1 30 ≠
      Except.error SpliceError.conflictingTimezoneOptions :=
  ⟨rfl, fun h => Except.noConfusion h⟩

/-- Claim C2 (amended): conflicting timezone options are rejected at the
CLI boundary (`main`) before the core is invoked, but the core `splice`
itself, when given both policies, does not fail: it silently resolves
under the local-system-timezone policy and ignores the named offset. -/
theorem conflict_silent_local (e : Nat × Nat) (n : List Char) (ih im dh dm : Nat) :
    mainConflict true (some n) = true ∧
    spliceTimePolicy e true (some n) ih im dh dm = Except.ok e :=
  ⟨rfl, rfl⟩

/-- Claim C1 counterexample: the header whose location-code group omits
the hyphen parses, but splitting its group on hyphens yields the single
12-digit element "006101006103", not the two codes "006101", "006103". -/
theorem split_nohyphen_counterexample :
    split_zczc "ZCZC-EAS-RWT-006101006103+0030-0010015-KEAS/TV-".toList = some gNoHyphen ∧
    pySplit '-' gNoHyphen.locationCodes = ["006101006103".toList] ∧
    pySplit '-' gNoHyphen.locationCodes ≠ ["006101".toList, "006103".toList] := by
  decide

/-- Claim C1 (amended): splitting the location-code group on hyphens
yields the individual codes whenever a hyphen separates each pair of
consecutive codes (for any number of codes, e.g. the hyphenated header
"ZCZC-EAS-RWT-006101-006103+0030-0010015-KEAS/TV-" yields
["006101","006103"]); when the hyphen between two consecutive codes is
omitted — which the grammar also accepts — the two codes remain
concatenated as a single list element. -/
theorem locationCodes_split (codes : List (List Char)) (hne : codes ≠ [])
    (hclean : ∀ c ∈ codes, '-' ∉ c) :
    pySplit '-' (hyphenJoin codes) = codes ∧
    split_zczc "ZCZC-EAS-RWT-006101-006103+0030-0010015-KEAS/TV-".toList = some gHyphen ∧
    pySplit '-' gHyphen.locationCodes = ["006101".toList, "006103".toList] :=
  ⟨pySplit_hyphenJoin codes hne hclean, by decide, by decide⟩

/-- Claim C1 witness: the two-code hyphenated group splits into the two
6-digit codes. -/
theorem locationCodes_split_witness :
    pySplit '-' (hyphenJoin ["006101".toList, "006103".toList]) =
      ["006101".toList, "006103".toList] :=
  (locationCodes_split ["006101".toList, "006103".toList] (by decide) (by decide)).1

/-- Claim C6: the plan contains no And segment when the location-code
list has exactly one element; with two or more elements it contains
exactly one And, immediately before the final Location segment (no And
occurs anywhere else, and no Location follows it). -/
theorem plan_and_segment (g : ZCZCGroups) (tones : Bool) (eh em : Nat) (raw : List Char) :
    ((pySplit '-' g.locationCodes).length = 1 →
      SegmentRef.andSeg ∉ planSegments g tones eh em raw) ∧
    (2 ≤ (pySplit '-' g.locationCodes).length →
      ∃ pre post,
        planSegments g tones eh em raw =
          pre ++ SegmentRef.andSeg ::
            SegmentRef.location ((pySplit '-' g.locationCodes).getLastD []) :: post ∧
        SegmentRef.andSeg ∉ pre ∧ SegmentRef.andSeg ∉ post ∧
        ∀ c, SegmentRef.location c ∉ post) := by
  constructor
  · intro hlen
    obtain ⟨c, hc⟩ := List.length_eq_one.mp hlen
    intro hmem
    cases tones <;>
      simp [planSegments, hc, locSegs, tonesLead, tonesTail] at hmem
  · intro hlen
    refine ⟨(if tones then tonesLead raw else []) ++ [SegmentRef.event g.event]
        ++ (pySplit '-' g.locationCodes).dropLast.map SegmentRef.location,
      SegmentRef.untilSeg :: SegmentRef.hour (hourAmPm eh).1
        :: SegmentRef.minute (two em) :: SegmentRef.ampm (hourAmPm eh).2
        :: (if tones then tonesTail else []), ?_, ?_, ?_, ?_⟩
    · rw [planSegments, locSegs_two _ hlen]
      simp [List.append_assoc]
    · cases tones <;>
        · simp [tonesLead]
          intro h
          have hmem :=
            (List.dropLast_sublist
              (List.map SegmentRef.location (pySplit '-' g.locationCodes))).subset h
          simp at hmem
    · cases tones <;> simp [tonesTail]
    · intro c
      cases tones <;> simp [tonesTail]

/-- Claim C6 witness: the two-code reference header's plan contains the
And segment immediately before the final Location. -/
theorem plan_and_segment_witness :
    2 ≤ (pySplit '-' gHyphen.locationCodes).length ∧
    ∃ pre post,
      planSegments gHyphen false 13 30 [] =
        pre ++ SegmentRef.andSeg ::
          SegmentRef.location ((pySplit '-' gHyphen.locationCodes).getLastD []) :: post ∧
      SegmentRef.andSeg ∉ pre ∧ SegmentRef.andSeg ∉ post ∧
      ∀ c, SegmentRef.location c ∉ post :=
  ⟨by decide, (plan_and_segment gHyphen false 13 30 []).2 (by decide)⟩

/-- Claim C10: the header whose location-code group ends with a hyphen
just before the `+` parses; the split list ends with an empty element,
which counts toward the two-code threshold (the And segment is
emitted), appears as a Location segment, and produces an attempted
lookup of the asset identifier "LOC/" with empty code. -/
theorem trailing_hyphen_empty_code :
    split_zczc "ZCZC-EAS-RWT-006101-+0030-0010015-KEAS/TV-".toList = some gTrailing ∧
    pySplit '-' gTrailing.locationCodes = ["006101".toList, []] ∧
    (pySplit '-' gTrailing.locationCodes).length = 2 ∧
    SegmentRef.andSeg ∈
      planSegments gTrailing false (end_hour gTrailing) (end_minute gTrailing) [] ∧
    SegmentRef.location [] ∈
      planSegments gTrailing false (end_hour gTrailing) (end_minute gTrailing) [] ∧
    "LOC/".toList ∈
      (planSegments gTrailing false (end_hour gTrailing) (end_minute gTrailing) []).filterMap
        assetId := by
  decide

/-- Claim C7: whenever any segment of the plan carries an asset
identifier the collaborator cannot resolve, regardless of its position,
assembly fails with the missing-asset error and the export step yields
no output. -/
theorem assemble_missing (lookup : List Char → Option (List Int))
    (synth : SegmentRef → List Int) (plan : List SegmentRef)
    (hmiss : ∃ r ∈ plan, (assetId r).isSome ∧ lookup ((assetId r).getD []) = none) :
    isMissingAssetErr (assemble lookup synth plan) = true ∧
    exportIfOk (assemble lookup synth plan) = none := by
  obtain ⟨r, hr, hsome, hnone⟩ := hmiss
  have h1 := assemble_missing_aux lookup synth plan r hr hsome hnone
  exact ⟨h1, missing_no_export _ h1⟩

/-- Claim C7 witness: a plan whose only segment cannot be resolved
fails with the missing-asset error and exports nothing. -/
theorem assemble_missing_witness :
    isMissingAssetErr (assemble noneLookup zeroSynth [SegmentRef.untilSeg]) = true ∧
    exportIfOk (assemble noneLookup zeroSynth [SegmentRef.untilSeg]) = none :=
  assemble_missing noneLookup zeroSynth [SegmentRef.untilSeg]
    ⟨SegmentRef.untilSeg, by decide, by decide, by decide⟩

/-- Claim C8 counterexample: the single-space payload is non-empty and
contains no byte ≥ 128, yet the tone encoder takes the error branch
(its whitespace-stripped text is empty). -/
theorem tones_space_counterexample :
    isInvalidInput (generate_tones [1] [2] [5] none [' ']).1 = true ∧
    ([' '] : List Char) ≠ [] ∧ (' ').toNat < 128 := by
  decide

/-- Claim C8 (amended): the tone encoder fails with the invalid-input
error exactly when the whitespace-stripped payload is empty (which
includes the empty payload and whitespace-only payloads) or the
stripped payload contains a byte ≥ 128; for all other payloads the
error branch is not taken. -/
theorem tones_error_iff (markRaw spaceRaw gapRaw1s : List Int) (cache : Option ToneCache)
    (payload : List Char) :
    isInvalidInput (generate_tones markRaw spaceRaw gapRaw1s cache payload).1 = true ↔
      (pyStrip payload = [] ∨ ∃ c ∈ pyStrip payload, 128 ≤ c.toNat) := by
  by_cases h0 : payload = []
  · subst h0
    simp [generate_tones, isInvalidInput, pyStrip]
  · by_cases h1 : pyStrip payload = []
    · simp [generate_tones, h0, h1, isInvalidInput]
    · by_cases h2 : (pyStrip payload).any (fun c => decide (128 ≤ c.toNat))
      · have hl : (generate_tones markRaw spaceRaw gapRaw1s cache payload).1 =
            Except.error SpliceError.invalidInput := by
          simp [generate_tones, h0, h1, h2]
        rw [hl]
        rw [List.any_eq_true] at h2
        obtain ⟨c, hc, hcb⟩ := h2
        simp [isInvalidInput]
        exact Or.inr ⟨c, hc, of_decide_eq_true hcb⟩
      · have hl : (generate_tones markRaw spaceRaw gapRaw1s cache payload).1 =
            Except.ok (renderWith (cache.getD (buildCache markRaw spaceRaw gapRaw1s))
              (pyStrip payload)) := by
          simp [generate_tones, h0, h1, h2]
        rw [hl]
        simp [isInvalidInput, h1]
        intro c hc
        by_contra hge
        exact h2 (List.any_eq_true.mpr ⟨c, hc, decide_eq_true (Nat.not_lt.mp hge)⟩)

/-- Claim C8 witness: the tab-only payload strips to empty and errors. -/
theorem tones_error_iff_witness :
    isInvalidInput (generate_tones [1] [2] [5] none ['\t']).1 = true :=
  (tones_error_iff [1] [2] [5] none ['\t']).mpr (Or.inl (by decide))

/-- Claim C9: the tone encoder is deterministic across the cache
lifecycle: for any payload, an invocation reading the cache state left
by a first invocation (which builds the byte-lookup table) returns the
same result as a fresh invocation on the same payload. -/
theorem generate_tones_deterministic (markRaw spaceRaw gapRaw1s : List Int)
    (s t : List Char) :
    (generate_tones markRaw spaceRaw gapRaw1s
        (generate_tones markRaw spaceRaw gapRaw1s none t).2 s).1 =
      (generate_tones markRaw spaceRaw gapRaw1s none s).1 := by
  have hcache : (generate_tones markRaw spaceRaw gapRaw1s none t).2 = none ∨
      (generate_tones markRaw spaceRaw gapRaw1s none t).2 =
        some (buildCache markRaw spaceRaw gapRaw1s) := by
    by_cases h0 : t = []
    · left
      simp [generate_tones, h0]
    · by_cases h1 : pyStrip t = []
      · left
        simp [generate_tones, h0, h1]
      · by_cases h2 : (pyStrip t).any (fun c => decide (128 ≤ c.toNat))
        · left
          simp [generate_tones, h0, h1, h2]
        · right
          simp [generate_tones, h0, h1, h2]
  rcases hcache with h | h <;> rw [h]
  by_cases h0 : s = []
  · simp [generate_tones, h0]
  · by_cases h1 : pyStrip s = []
    · simp [generate_tones, h0, h1]
    · by_cases h2 : (pyStrip s).any (fun c => decide (128 ≤ c.toNat))
      · simp [generate_tones, h0, h1, h2]
      · simp [generate_tones, h0, h1, h2]

set_option maxRecDepth 10000 in
/-- Claim C3 counterexample: for the payload " A" (length 2, non-empty,
all-ASCII) the encoder renders the stripped text "A": with one-sample
bit and gap renders the output has 3·((16+1+1)·8·1) + 2·1 = 434
samples, not the claimed 3·((16+2+1)·8·1) + 2·1 = 458. -/
theorem tones_strip_counterexample :
    okLength (generate_tones [1] [2] [5] none [' ', 'A']).1 = some 434 ∧
    3 * ((16 + 2 + 1) * (8 * 1)) + 2 * 1 ≠ 434 := by
  decide

/-- Claim C3 (amended): for every non-empty ASCII payload with no
leading or trailing whitespace (stripping leaves it unchanged), the
encoder outputs exactly the byte sequence 16 × 0xAB, the payload bytes,
then 0x0D, rendered three times with the 1000 ms silence render between
consecutive repeats and none after the third, each byte
least-significant-bit first with the mark render for a 1 bit and the
space render for a 0 bit; the total sample count is
3 × (16 + len + 1) × 8 × bitDurationSamples + 2 × gapSamples. -/
theorem generate_tones_structure (markRaw spaceRaw gapRaw1s : List Int) (payload : List Char)
    (hne : payload ≠ []) (hstrip : pyStrip payload = payload)
    (hascii : ∀ c ∈ payload, c.toNat < 128) (hlen : spaceRaw.length = markRaw.length) :
    (generate_tones markRaw spaceRaw gapRaw1s none payload).1 =
      Except.ok (renderMessage markRaw spaceRaw (burstBytes payload) ++ gapRaw1s
        ++ renderMessage markRaw spaceRaw (burstBytes payload) ++ gapRaw1s
        ++ renderMessage markRaw spaceRaw (burstBytes payload)) ∧
    (renderMessage markRaw spaceRaw (burstBytes payload) ++ gapRaw1s
        ++ renderMessage markRaw spaceRaw (burstBytes payload) ++ gapRaw1s
        ++ renderMessage markRaw spaceRaw (burstBytes payload)).length =
      3 * ((16 + payload.length + 1) * (8 * markRaw.length)) + 2 * gapRaw1s.length := by
  have hrender : flatConcat (lookupByte (buildByteLookup markRaw spaceRaw)) (burstBytes payload)
      = renderMessage markRaw spaceRaw (burstBytes payload) := by
    unfold renderMessage
    apply flatConcat_congr
    intro v hv
    rw [lookupByte_build markRaw spaceRaw v (burstBytes_lt payload hascii v hv),
      byteChunk_eq_LSB]
  constructor
  · have hany : payload.any (fun c => decide (128 ≤ c.toNat)) = false := by
      rw [Bool.eq_false_iff]
      intro hx
      rw [List.any_eq_true] at hx
      obtain ⟨c, hc, hcb⟩ := hx
      exact absurd (of_decide_eq_true hcb) (Nat.not_le.mpr (hascii c hc))
    simp [generate_tones, hne, hstrip, hany, renderWith, buildCache, hrender]
  · have hmsg : (renderMessage markRaw spaceRaw (burstBytes payload)).length
        = (16 + payload.length + 1) * (8 * markRaw.length) := by
      have h := flatConcat_length (byteChunkLSB markRaw spaceRaw) (8 * markRaw.length)
        (burstBytes payload) (fun v _ => byteChunkLSB_length markRaw spaceRaw hlen v)
      rw [renderMessage, h, burstBytes_length]
    simp [List.length_append, hmsg]
    ring

/-- Claim C3 witness: the one-byte payload "A" with one-sample bit and
gap renders yields the triple-burst layout and 3·(18·8) + 2 samples. -/
theorem generate_tones_structure_witness :
    (generate_tones [1] [2] [5] none ['A']).1 =
      Except.ok (renderMessage [1] [2] (burstBytes ['A']) ++ [5]
        ++ renderMessage [1] [2] (burstBytes ['A']) ++ [5]
        ++ renderMessage [1] [2] (burstBytes ['A'])) ∧
    (renderMessage [1] [2] (burstBytes ['A']) ++ [5]
        ++ renderMessage [1] [2] (burstBytes ['A']) ++ [5]
        ++ renderMessage [1] [2] (burstBytes ['A'])).length =
      3 * ((16 + 1 + 1) * (8 * 1)) + 2 * 1 :=
  generate_tones_structure [1] [2] [5] ['A'] (by decide) (by decide) (by decide) (by decide)

end Splicer
